import Mathlib

/-!
Shallow embedding of the grocery-app repository: the REST handlers of the
in-memory server variant (src/server.js), those of the BigQuery-backed
variant (src/unnamed/part_002) as far as they act on the in-memory mirror,
and the confetti particle loop (src/unnamed/part_000).  Request bodies are
unvalidated JSON, so item fields are modelled as JavaScript values with
JavaScript truthiness.
-/

/-- JavaScript values as they occur in request bodies and stored items.
Numbers are modelled as rationals; NaN and object values play no role in
the claims. -/
inductive JSValue where
  | undefined : JSValue
  | null : JSValue
  | num : ℚ → JSValue
  | str : String → JSValue
  | bool : Bool → JSValue
  deriving DecidableEq, Repr, Inhabited

/-- JavaScript truthiness for the modelled values. -/
def truthy : JSValue → Bool
  | JSValue.undefined => false
  | JSValue.null => false
  | JSValue.num q => decide (q ≠ 0)
  | JSValue.str s => decide (s ≠ "")
  | JSValue.bool b => b

/-- JavaScript `a || b` restricted to the modelled values. -/
def jsOr (a b : JSValue) : JSValue := if truthy a then a else b

/-- A stored grocery item.  Items created by the in-memory variant carry no
boughtAt property, which reads as undefined in JavaScript; the BigQuery
variant initialises it to null. -/
structure GroceryItem where
  id : String
  name : JSValue
  quantity : JSValue
  category : JSValue
  notes : JSValue
  bought : JSValue
  createdAt : String
  boughtAt : JSValue
  deriving DecidableEq, Repr, Inhabited

/-- Body of POST /api/items; fields absent from the JSON read as undefined. -/
structure PostBody where
  name : JSValue
  quantity : JSValue
  category : JSValue
  notes : JSValue
  deriving DecidableEq, Repr

/-- Body of PUT /api/items/:id; fields absent from the JSON read as undefined. -/
structure PutBody where
  bought : JSValue
  quantity : JSValue
  notes : JSValue
  deriving DecidableEq, Repr

/-- HTTP response of a handler: a JSON item, a JSON array, a JSON error
object, or an empty body, each with its status code. -/
inductive ApiResponse where
  | item : ℕ → GroceryItem → ApiResponse
  | items : ℕ → List GroceryItem → ApiResponse
  | error : ℕ → String → ApiResponse
  | empty : ℕ → ApiResponse
  deriving DecidableEq, Repr

/-- Array.prototype.findIndex specialised to matching on the item id, as in
groceryItems.findIndex(item => item.id === id); none models the JavaScript
return value -1. -/
def findIndex (id : String) : List GroceryItem → Option ℕ
  | [] => none
  | it :: rest => if it.id = id then some 0 else (findIndex id rest).map (· + 1)

/-- GET /api/items of the in-memory variant (src/server.js lines 18-20). -/
def getItems (st : List GroceryItem) : ApiResponse := ApiResponse.items 200 st

/-- Record built by POST /api/items of the in-memory variant
(src/server.js lines 25-33); the generated uuid and the creation timestamp
enter as parameters. -/
def mkItemMem (body : PostBody) (freshId now : String) : GroceryItem :=
  { id := freshId
    name := body.name
    quantity := jsOr body.quantity (JSValue.num 1)
    category := jsOr body.category (JSValue.str "other")
    notes := jsOr body.notes (JSValue.str "")
    bought := JSValue.bool false
    createdAt := now
    boughtAt := JSValue.undefined }

/-- POST /api/items of the in-memory variant (src/server.js lines 23-36). -/
def postItemMem (st : List GroceryItem) (body : PostBody) (freshId now : String) :
    List GroceryItem × ApiResponse :=
  (st ++ [mkItemMem body freshId now], ApiResponse.item 201 (mkItemMem body freshId now))

/-- Field patch of PUT /api/items/:id (src/server.js lines 48-50): three
independent conditional assignments, one per optional body field. -/
def applyPut (body : PutBody) (it : GroceryItem) : GroceryItem :=
  { it with
    bought := if body.bought ≠ JSValue.undefined then body.bought else it.bought
    quantity := if body.quantity ≠ JSValue.undefined then body.quantity else it.quantity
    notes := if body.notes ≠ JSValue.undefined then body.notes else it.notes }

/-- PUT /api/items/:id of the in-memory variant (src/server.js lines 39-53). -/
def putItemMem (st : List GroceryItem) (id : String) (body : PutBody) :
    List GroceryItem × ApiResponse :=
  match findIndex id st with
  | none => (st, ApiResponse.error 404 "Item not found")
  | some i =>
      let it := applyPut body (st.getD i default)
      (st.set i it, ApiResponse.item 200 it)

/-- DELETE /api/items/:id of the in-memory variant (src/server.js lines 56-66). -/
def deleteItemMem (st : List GroceryItem) (id : String) :
    List GroceryItem × ApiResponse :=
  match findIndex id st with
  | none => (st, ApiResponse.error 404 "Item not found")
  | some i => (st.eraseIdx i, ApiResponse.empty 204)

/-- DELETE /api/items/bought/clear of the in-memory variant
(src/server.js lines 69-72). -/
def clearBoughtMem (st : List GroceryItem) : List GroceryItem × ApiResponse :=
  (st.filter (fun it => !truthy it.bought), ApiResponse.empty 204)

/-- Record built by POST /api/items of the BigQuery variant
(src/unnamed/part_002 lines 198-219); identical to the in-memory variant
except that boughtAt is initialised to null. -/
def mkItemBQ (body : PostBody) (freshId now : String) : GroceryItem :=
  { id := freshId
    name := body.name
    quantity := jsOr body.quantity (JSValue.num 1)
    category := jsOr body.category (JSValue.str "other")
    notes := jsOr body.notes (JSValue.str "")
    bought := JSValue.bool false
    createdAt := now
    boughtAt := JSValue.null }

/-- POST /api/items of the BigQuery variant, assembled from the record
above; the warehouse insert is external I/O mirrored from it. -/
def postItemBQ (st : List GroceryItem) (body : PostBody) (freshId now : String) :
    List GroceryItem × ApiResponse :=
  (st ++ [mkItemBQ body freshId now], ApiResponse.item 201 (mkItemBQ body freshId now))

/-- BoughtAt update of the BigQuery PUT handler (src/unnamed/part_002 lines
236-241): set a timestamp when the body carries bought strictly equal to
true, clear to null when strictly equal to false, otherwise untouched. -/
def applyBoughtAt (bought : JSValue) (now : String) (it : GroceryItem) : GroceryItem :=
  { it with boughtAt :=
      if bought = JSValue.bool true then JSValue.str now
      else if bought = JSValue.bool false then JSValue.null
      else it.boughtAt }

/-- PUT /api/items/:id of the BigQuery variant (src/unnamed/part_002 lines
222-249), acting on the in-memory mirror; the warehouse merge is external
I/O mirrored from the updated record. -/
def putItemBQ (st : List GroceryItem) (id : String) (body : PutBody) (now : String) :
    List GroceryItem × ApiResponse :=
  match findIndex id st with
  | none => (st, ApiResponse.error 404 "Item not found")
  | some i =>
      let it := applyBoughtAt body.bought now (applyPut body (st.getD i default))
      (st.set i it, ApiResponse.item 200 it)

/-- DELETE /api/items/bought/clear of the BigQuery variant
(src/unnamed/part_002 lines 271-280), mirror update. -/
def clearBoughtBQ (st : List GroceryItem) : List GroceryItem × ApiResponse :=
  (st.filter (fun it => !truthy it.bought), ApiResponse.empty 204)

/-- One client-visible mutating request against the in-memory variant; a
post carries the generated uuid and timestamp as data. -/
inductive ApiOp where
  | post : PostBody → String → String → ApiOp
  | put : String → PutBody → ApiOp
  | del : String → ApiOp
  | clear : ApiOp
  deriving Repr

/-- State transition of one request of the in-memory variant. -/
def execOp (st : List GroceryItem) : ApiOp → List GroceryItem
  | ApiOp.post body freshId now => (postItemMem st body freshId now).1
  | ApiOp.put id body => (putItemMem st id body).1
  | ApiOp.del id => (deleteItemMem st id).1
  | ApiOp.clear => (clearBoughtMem st).1

/-- Run a sequence of requests from a starting collection. -/
def runOps (st : List GroceryItem) (ops : List ApiOp) : List GroceryItem :=
  ops.foldl execOp st

/-- A confetti particle (src/unnamed/part_000, createParticle); colour,
size and shape only affect drawing and are omitted. -/
structure Particle where
  x : ℚ
  y : ℚ
  vx : ℚ
  vy : ℚ
  rotation : ℚ
  rotationSpeed : ℚ
  gravity : ℚ
  drag : ℚ
  life : ℚ
  decay : ℚ
  deriving DecidableEq, Repr, Inhabited

/-- Per-frame physics update of one particle (src/unnamed/part_000 lines
133-139), the statement sequence x += vx; y += vy; vy += gravity;
vx *= drag; vy *= drag; rotation += rotationSpeed; life -= decay, in which
x and y read the velocities before gravity and drag apply. -/
def updateParticle (p : Particle) : Particle :=
  { p with
    x := p.x + p.vx
    y := p.y + p.vy
    vx := p.vx * p.drag
    vy := (p.vy + p.gravity) * p.drag
    rotation := p.rotation + p.rotationSpeed
    life := p.life - p.decay }

/-- Removal test of the animate loop (src/unnamed/part_000 line 159): life
has reached 0, or the particle has fallen more than 50 pixels below the
canvas of the given height. -/
def dead (height : ℚ) (p : Particle) : Bool :=
  decide (p.life ≤ 0) || decide (p.y > height + 50)

/-- One frame of ConfettiCannon.animate (src/unnamed/part_000 lines
129-162) on the particle array: the loop updates every particle in place
and splices out the dead ones, preserving order; drawing has no effect on
the state. -/
def stepFrame (height : ℚ) (ps : List Particle) : List Particle :=
  (ps.map updateParticle).filter (fun p => !dead height p)

/-- Typing of quantity stated by the spec data model: a positive integer. -/
def posIntQuantity (v : JSValue) : Prop := ∃ n : ℕ, 0 < n ∧ v = JSValue.num n

/-- A request whose quantity field, when present, is a positive integer. -/
def opQuantityOK : ApiOp → Prop
  | ApiOp.post body _ _ => body.quantity = JSValue.undefined ∨ posIntQuantity body.quantity
  | ApiOp.put _ body => body.quantity = JSValue.undefined ∨ posIntQuantity body.quantity
  | ApiOp.del _ => True
  | ApiOp.clear => True

/-- Whether a value is a string, the shape of a stored timestamp. -/
def isTimestampStr : JSValue → Bool
  | JSValue.str _ => true
  | _ => false

/-- Sample item exactly as the in-memory POST handler creates it. -/
def itemA : GroceryItem :=
  { id := "a", name := JSValue.str "milk", quantity := JSValue.num 1
    category := JSValue.str "other", notes := JSValue.str ""
    bought := JSValue.bool false, createdAt := "t0", boughtAt := JSValue.undefined }

/-- Sample item exactly as the BigQuery POST handler creates it. -/
def itemB : GroceryItem :=
  { id := "b", name := JSValue.str "eggs", quantity := JSValue.num 2
    category := JSValue.str "dairy", notes := JSValue.str ""
    bought := JSValue.bool false, createdAt := "t1", boughtAt := JSValue.null }

/-- PUT body marking an item bought. -/
def putTrue : PutBody :=
  { bought := JSValue.bool true, quantity := JSValue.undefined, notes := JSValue.undefined }

/-- PUT body marking an item not bought. -/
def putFalse : PutBody :=
  { bought := JSValue.bool false, quantity := JSValue.undefined, notes := JSValue.undefined }

/-- Sample particle with the default decay, gravity and drag of
createParticle and zero initial velocity. -/
def sampleParticle : Particle :=
  { x := 0, y := 0, vx := 0, vy := 0, rotation := 0, rotationSpeed := 0
    gravity := 3/10, drag := 99/100, life := 1, decay := 1/100 }

/-! Helper lemmas about lists and the handlers. -/

theorem getD_append_len {α : Type} (l : List α) (a d : α) :
    (l ++ [a]).getD l.length d = a := by
  induction l with
  | nil => rfl
  | cons b l ih => simpa using ih

theorem set_append_len {α : Type} (l : List α) (a b : α) :
    (l ++ [a]).set l.length b = l ++ [b] := by
  induction l with
  | nil => rfl
  | cons c l ih => simpa using ih

theorem eraseIdx_append_len {α : Type} (l : List α) (a : α) :
    (l ++ [a]).eraseIdx l.length = l := by
  induction l with
  | nil => rfl
  | cons c l ih => simpa using ih

theorem getD_set_self {α : Type} (l : List α) (i : ℕ) (a d : α) (h : i < l.length) :
    (l.set i a).getD i d = a := by
  induction l generalizing i with
  | nil => simp at h
  | cons c l ih =>
      cases i with
      | zero => rfl
      | succ j => simpa using ih j (by simpa using h)

theorem getD_set_ne {α : Type} (l : List α) (i j : ℕ) (a d : α) (h : i ≠ j) :
    (l.set i a).getD j d = l.getD j d := by
  induction l generalizing i j with
  | nil => simp [List.set]
  | cons c l ih =>
      cases i with
      | zero =>
          cases j with
          | zero => exact absurd rfl h
          | succ k => simp
      | succ i' =>
          cases j with
          | zero => simp
          | succ k => simpa using ih i' k (fun hc => h (by rw [hc]))

theorem findIndex_lt_length {id : String} {st : List GroceryItem} {i : ℕ}
    (h : findIndex id st = some i) : i < st.length := by
  induction st generalizing i with
  | nil => simp [findIndex] at h
  | cons a l ih =>
      by_cases ha : a.id = id
      · simp [findIndex, ha] at h
        simp [← h]
      · simp only [findIndex, ha, if_false] at h
        cases hf : findIndex id l with
        | none => rw [hf] at h; simp at h
        | some j =>
            rw [hf] at h
            simp only [Option.map_some', Option.some.injEq] at h
            have := ih hf
            simp [← h]
            omega

theorem findIndex_none_of_fresh {id : String} {st : List GroceryItem}
    (h : ∀ it ∈ st, it.id ≠ id) : findIndex id st = none := by
  induction st with
  | nil => rfl
  | cons a l ih =>
      have ha := h a (List.mem_cons_self a l)
      simp only [findIndex, ha, if_false]
      rw [ih (fun it hit => h it (List.mem_cons_of_mem a hit))]
      rfl

theorem findIndex_append_fresh {id : String} {st : List GroceryItem} {a : GroceryItem}
    (h : ∀ it ∈ st, it.id ≠ id) (ha : a.id = id) :
    findIndex id (st ++ [a]) = some st.length := by
  induction st with
  | nil => simp [findIndex, ha]
  | cons b l ih =>
      have hb := h b (List.mem_cons_self b l)
      have ihl := ih (fun it hit => h it (List.mem_cons_of_mem b hit))
      show findIndex id (b :: (l ++ [a])) = some (l.length + 1)
      simp [findIndex, hb, ihl]

theorem applyPut_id (body : PutBody) (it : GroceryItem) :
    (applyPut body it).id = it.id := rfl

theorem applyPut_name (body : PutBody) (it : GroceryItem) :
    (applyPut body it).name = it.name := rfl

theorem applyPut_category (body : PutBody) (it : GroceryItem) :
    (applyPut body it).category = it.category := rfl

theorem applyPut_createdAt (body : PutBody) (it : GroceryItem) :
    (applyPut body it).createdAt = it.createdAt := rfl

theorem mem_stepFrame {height : ℚ} {ps : List Particle} {q : Particle} :
    q ∈ stepFrame height ps ↔
      ∃ r, r ∈ ps ∧ q = updateParticle r ∧ dead height q = false := by
  simp only [stepFrame, List.mem_filter, List.mem_map, Bool.not_eq_true']
  constructor
  · rintro ⟨⟨r, hr, rfl⟩, hd⟩
    exact ⟨r, hr, rfl, hd⟩
  · rintro ⟨r, hr, rfl, hd⟩
    exact ⟨⟨r, hr, rfl⟩, hd⟩

theorem life_pos_of_mem_stepFrame {height : ℚ} {ps : List Particle} {q : Particle}
    (hq : q ∈ stepFrame height ps) : 0 < q.life := by
  obtain ⟨r, -, -, hd⟩ := mem_stepFrame.mp hq
  simp only [dead, Bool.or_eq_false_iff, decide_eq_false_iff_not, not_le, not_lt] at hd
  exact hd.1

theorem updateParticle_life (p : Particle) :
    (updateParticle p).life = p.life - p.decay := rfl

theorem updateParticle_decay (p : Particle) :
    (updateParticle p).decay = p.decay := rfl

theorem life_iterate {height : ℚ} {ps : List Particle} {q : Particle} {n : ℕ}
    (hq : q ∈ (stepFrame height)^[n] ps) :
    ∃ r, r ∈ ps ∧ q.life = r.life - n * r.decay ∧ q.decay = r.decay := by
  induction n generalizing q with
  | zero => exact ⟨q, hq, by simp, rfl⟩
  | succ m ih =>
      rw [Function.iterate_succ_apply'] at hq
      obtain ⟨r, hr, rfl, -⟩ := mem_stepFrame.mp hq
      obtain ⟨s, hs, h1, h2⟩ := ih hr
      refine ⟨s, hs, ?_, ?_⟩
      · rw [updateParticle_life, h1, h2]
        push_cast
        ring
      · rw [updateParticle_decay, h2]

theorem exists_decay_bound (ps : List Particle) (h : ∀ p ∈ ps, 0 < p.decay) :
    ∃ N : ℕ, ∀ p ∈ ps, p.life - N * p.decay ≤ 0 := by
  induction ps with
  | nil => exact ⟨0, by simp⟩
  | cons p ps ih =>
      obtain ⟨N1, hN1⟩ := ih (fun q hq => h q (List.mem_cons_of_mem p hq))
      obtain ⟨n, hn⟩ := exists_nat_gt (p.life / p.decay)
      refine ⟨max n N1, ?_⟩
      intro q hq
      have hmax1 : (n : ℚ) ≤ (max n N1 : ℕ) := by exact_mod_cast Nat.le_max_left n N1
      have hmax2 : (N1 : ℚ) ≤ (max n N1 : ℕ) := by exact_mod_cast Nat.le_max_right n N1
      rcases List.mem_cons.mp hq with rfl | hq'
      · have hd := h q (List.mem_cons_self q ps)
        rw [div_lt_iff hd] at hn
        nlinarith
      · have hd := h q (List.mem_cons_of_mem p hq')
        have := hN1 q hq'
        nlinarith

theorem getD_mem {α : Type} (l : List α) (i : ℕ) (d : α) (h : i < l.length) :
    l.getD i d ∈ l := by
  rw [List.getD_eq_getElem l d h]
  exact List.getElem_mem h

theorem filter_id_append_fresh {id : String} {st : List GroceryItem} {a : GroceryItem}
    (h : ∀ it ∈ st, it.id ≠ id) (ha : a.id = id) :
    (st ++ [a]).filter (fun it => it.id == id) = [a] := by
  induction st with
  | nil => simp [List.filter, ha]
  | cons b l ih =>
      have hb := h b (List.mem_cons_self b l)
      have ihl := ih (fun it hit => h it (List.mem_cons_of_mem b hit))
      simp only [List.cons_append, List.filter]
      rw [show (b.id == id) = false by simpa using hb]
      exact ihl

theorem jsOr_of_falsy (a b : JSValue) (h : truthy a = false) : jsOr a b = b := by
  simp [jsOr, h]

theorem jsOr_of_truthy (a b : JSValue) (h : truthy a = true) : jsOr a b = a := by
  simp [jsOr, h]

theorem jsOr_undefined (b : JSValue) : jsOr JSValue.undefined b = b := rfl

theorem dead_eq_false_iff {height : ℚ} {p : Particle} :
    dead height p = false ↔ ¬(p.life ≤ 0 ∨ p.y > height + 50) := by
  simp [dead, not_or]

/-- C5: DELETE /api/items/:id with an identifier not present in the
collection returns 404 with an error body, and the collection is exactly
the same before and after the request. -/
theorem delete_unknown_id (st : List GroceryItem) (id : String)
    (h : ∀ it ∈ st, it.id ≠ id) :
    deleteItemMem st id = (st, ApiResponse.error 404 "Item not found") := by
  unfold deleteItemMem
  rw [findIndex_none_of_fresh h]

/-- Witness for delete_unknown_id at a concrete collection and identifier. -/
theorem delete_unknown_id_witness :
    (∀ it ∈ [itemA], it.id ≠ "zzz") ∧
    deleteItemMem [itemA] "zzz" = ([itemA], ApiResponse.error 404 "Item not found") :=
  ⟨by decide, delete_unknown_id [itemA] "zzz" (by decide)⟩

/-- C4: DELETE /api/items/bought/clear returns 204 and, on a collection
whose bought fields are booleans as the data model types them, keeps
exactly the items with bought false (so it removes exactly those with
bought true) and is a no-op when no item is bought; the BigQuery variant
updates its mirror identically. -/
theorem clear_bought_spec (st : List GroceryItem)
    (h : ∀ it ∈ st, it.bought = JSValue.bool true ∨ it.bought = JSValue.bool false) :
    (clearBoughtMem st).2 = ApiResponse.empty 204 ∧
    (∀ it, it ∈ (clearBoughtMem st).1 ↔ it ∈ st ∧ it.bought = JSValue.bool false) ∧
    ((∀ it ∈ st, it.bought ≠ JSValue.bool true) → (clearBoughtMem st).1 = st) ∧
    clearBoughtBQ st = clearBoughtMem st := by
  refine ⟨rfl, ?_, ?_, rfl⟩
  · intro it
    simp only [clearBoughtMem, List.mem_filter, Bool.not_eq_true']
    constructor
    · rintro ⟨hm, hb⟩
      rcases h it hm with ht | hf
      · rw [ht] at hb
        simp [truthy] at hb
      · exact ⟨hm, hf⟩
    · rintro ⟨hm, hf⟩
      refine ⟨hm, ?_⟩
      rw [hf]
      rfl
  · intro hnone
    show st.filter (fun it => !truthy it.bought) = st
    apply List.filter_eq_self.mpr
    intro it hm
    rcases h it hm with ht | hf
    · exact absurd ht (hnone it hm)
    · rw [hf]
      rfl

/-- Witness for clear_bought_spec on a two-item collection with one bought
item. -/
theorem clear_bought_spec_witness :
    (∀ it ∈ [itemA, { itemB with bought := JSValue.bool true }],
        it.bought = JSValue.bool true ∨ it.bought = JSValue.bool false) ∧
    (itemA ∈ (clearBoughtMem [itemA, { itemB with bought := JSValue.bool true }]).1 ↔
      itemA ∈ [itemA, { itemB with bought := JSValue.bool true }] ∧
      itemA.bought = JSValue.bool false) :=
  ⟨by decide,
   (clear_bought_spec [itemA, { itemB with bought := JSValue.bool true }] (by decide)).2.1 itemA⟩

/-- C8: PUT /api/items/:id responds 404 with an error body and no state
change when the identifier is absent; otherwise it responds 200 with the
updated item, changes on the target item exactly the fields present in
the body, keeps its id, name, category and createdAt, and leaves the
length and every other position of the collection unchanged. -/
theorem put_frame_conditions (st : List GroceryItem) (id : String) (body : PutBody) :
    (findIndex id st = none →
      putItemMem st id body = (st, ApiResponse.error 404 "Item not found")) ∧
    (∀ i, findIndex id st = some i →
      putItemMem st id body =
        (st.set i (applyPut body (st.getD i default)),
         ApiResponse.item 200 (applyPut body (st.getD i default))) ∧
      ((applyPut body (st.getD i default)).id = (st.getD i default).id ∧
       (applyPut body (st.getD i default)).name = (st.getD i default).name ∧
       (applyPut body (st.getD i default)).category = (st.getD i default).category ∧
       (applyPut body (st.getD i default)).createdAt = (st.getD i default).createdAt) ∧
      ((body.bought = JSValue.undefined →
          (applyPut body (st.getD i default)).bought = (st.getD i default).bought) ∧
       (body.bought ≠ JSValue.undefined →
          (applyPut body (st.getD i default)).bought = body.bought) ∧
       (body.quantity = JSValue.undefined →
          (applyPut body (st.getD i default)).quantity = (st.getD i default).quantity) ∧
       (body.quantity ≠ JSValue.undefined →
          (applyPut body (st.getD i default)).quantity = body.quantity) ∧
       (body.notes = JSValue.undefined →
          (applyPut body (st.getD i default)).notes = (st.getD i default).notes) ∧
       (body.notes ≠ JSValue.undefined →
          (applyPut body (st.getD i default)).notes = body.notes)) ∧
      (st.set i (applyPut body (st.getD i default))).length = st.length ∧
      (∀ j, j ≠ i →
        (st.set i (applyPut body (st.getD i default))).getD j default =
          st.getD j default)) := by
  constructor
  · intro h
    unfold putItemMem
    rw [h]
  · intro i hi
    refine ⟨?_, ⟨rfl, rfl, rfl, rfl⟩, ?_, ?_, ?_⟩
    · unfold putItemMem
      rw [hi]
    · refine ⟨?_, ?_, ?_, ?_, ?_, ?_⟩ <;> intro hb <;> simp [applyPut, hb]
    · simp
    · intro j hj
      exact getD_set_ne st i j _ default (fun hc => hj hc.symm)

/-- Witness for put_frame_conditions: patching the sample item with bought
true responds 200 with the updated record. -/
theorem put_frame_conditions_witness :
    findIndex "a" [itemA] = some 0 ∧
    putItemMem [itemA] "a" putTrue =
      ([itemA].set 0 (applyPut putTrue ([itemA].getD 0 default)),
       ApiResponse.item 200 (applyPut putTrue ([itemA].getD 0 default))) :=
  ⟨by decide, ((put_frame_conditions [itemA] "a" putTrue).2 0 (by decide)).1⟩

/-- C10: a POST whose quantity field is any falsy value, 0 in particular,
creates and returns exactly the same item as a POST omitting quantity, in
both server variants. -/
theorem post_falsy_quantity (st : List GroceryItem)
    (nm cat nts qv : JSValue) (freshId now : String) (h : truthy qv = false) :
    postItemMem st ⟨nm, qv, cat, nts⟩ freshId now
      = postItemMem st ⟨nm, JSValue.undefined, cat, nts⟩ freshId now ∧
    postItemBQ st ⟨nm, qv, cat, nts⟩ freshId now
      = postItemBQ st ⟨nm, JSValue.undefined, cat, nts⟩ freshId now := by
  constructor <;>
    simp [postItemMem, postItemBQ, mkItemMem, mkItemBQ,
      jsOr_of_falsy (JSValue.num 0) (JSValue.num 1),
      jsOr_of_falsy qv (JSValue.num 1) h, jsOr_undefined]

/-- Witness for post_falsy_quantity with the falsy quantity 0. -/
theorem post_falsy_quantity_witness :
    truthy (JSValue.num 0) = false ∧
    postItemMem [] ⟨JSValue.str "milk", JSValue.num 0, JSValue.undefined, JSValue.undefined⟩ "a" "t0"
      = postItemMem [] ⟨JSValue.str "milk", JSValue.undefined, JSValue.undefined, JSValue.undefined⟩ "a" "t0" :=
  ⟨by decide,
   (post_falsy_quantity [] (JSValue.str "milk") JSValue.undefined JSValue.undefined
      (JSValue.num 0) "a" "t0" (by decide)).1⟩

/-- C6: from any initial collection, create with a fresh identifier, list,
patch the created item with bought true, list, delete the created item,
list: the final collection and the final listing equal the initial ones. -/
theorem round_trip_spec (st : List GroceryItem) (body : PostBody) (freshId now : String)
    (h : ∀ it ∈ st, it.id ≠ freshId) :
    (deleteItemMem
        ((putItemMem ((postItemMem st body freshId now).1) freshId putTrue).1)
        freshId).1 = st ∧
    getItems ((deleteItemMem
        ((putItemMem ((postItemMem st body freshId now).1) freshId putTrue).1)
        freshId).1) = getItems st := by
  have hfind1 : findIndex freshId (st ++ [mkItemMem body freshId now]) = some st.length :=
    findIndex_append_fresh h rfl
  have hput : (putItemMem (st ++ [mkItemMem body freshId now]) freshId putTrue).1
      = st ++ [applyPut putTrue (mkItemMem body freshId now)] := by
    unfold putItemMem
    rw [hfind1]
    show (st ++ [mkItemMem body freshId now]).set st.length
        (applyPut putTrue ((st ++ [mkItemMem body freshId now]).getD st.length default))
      = st ++ [applyPut putTrue (mkItemMem body freshId now)]
    rw [getD_append_len, set_append_len]
  have hfind2 : findIndex freshId (st ++ [applyPut putTrue (mkItemMem body freshId now)])
      = some st.length :=
    findIndex_append_fresh h (applyPut_id putTrue (mkItemMem body freshId now))
  have hdel : (deleteItemMem (st ++ [applyPut putTrue (mkItemMem body freshId now)]) freshId).1
      = st := by
    unfold deleteItemMem
    rw [hfind2]
    exact eraseIdx_append_len st _
  have hpost : (postItemMem st body freshId now).1 = st ++ [mkItemMem body freshId now] := rfl
  rw [hpost, hput, hdel]
  exact ⟨rfl, rfl⟩

/-- Witness for round_trip_spec on a one-item initial collection. -/
theorem round_trip_spec_witness :
    (∀ it ∈ [itemB], it.id ≠ "x") ∧
    (deleteItemMem
        ((putItemMem ((postItemMem [itemB]
            ⟨JSValue.str "milk", JSValue.undefined, JSValue.undefined, JSValue.undefined⟩
            "x" "t2").1) "x" putTrue).1) "x").1 = [itemB] :=
  ⟨by decide,
   (round_trip_spec [itemB]
      ⟨JSValue.str "milk", JSValue.undefined, JSValue.undefined, JSValue.undefined⟩
      "x" "t2" (by decide)).1⟩

/-- C7 counterexample: a POST supplying quantity 0 does not create an item
carrying the supplied quantity; the stored and returned item has quantity
1 instead. -/
theorem post_supplied_quantity_cex :
    (postItemMem []
        ⟨JSValue.str "milk", JSValue.num 0, JSValue.undefined, JSValue.undefined⟩
        "a" "t0").2 = ApiResponse.item 201 itemA ∧
    itemA.quantity ≠ JSValue.num 0 := by
  constructor
  · decide
  · decide

/-- C7 amended: POST /api/items responds 201 with a created item appended
to the collection, carrying the generated identifier and timestamp, the
supplied name, bought false, the supplied optional fields when these are
truthy, and the defaults quantity 1, category other, empty notes when they
are omitted; a subsequent GET lists the whole collection and contains
exactly one item under the fresh identifier, namely the created one. -/
theorem post_create_spec (st : List GroceryItem) (body : PostBody) (freshId now : String)
    (hfresh : ∀ it ∈ st, it.id ≠ freshId) :
    postItemMem st body freshId now
      = (st ++ [mkItemMem body freshId now],
         ApiResponse.item 201 (mkItemMem body freshId now)) ∧
    ((mkItemMem body freshId now).id = freshId ∧
     (mkItemMem body freshId now).name = body.name ∧
     (mkItemMem body freshId now).createdAt = now ∧
     (mkItemMem body freshId now).bought = JSValue.bool false ∧
     (mkItemMem body freshId now).boughtAt = JSValue.undefined) ∧
    ((body.quantity = JSValue.undefined →
        (mkItemMem body freshId now).quantity = JSValue.num 1) ∧
     (truthy body.quantity = true →
        (mkItemMem body freshId now).quantity = body.quantity) ∧
     (body.category = JSValue.undefined →
        (mkItemMem body freshId now).category = JSValue.str "other") ∧
     (truthy body.category = true →
        (mkItemMem body freshId now).category = body.category) ∧
     (body.notes = JSValue.undefined →
        (mkItemMem body freshId now).notes = JSValue.str "") ∧
     (truthy body.notes = true →
        (mkItemMem body freshId now).notes = body.notes)) ∧
    getItems ((postItemMem st body freshId now).1)
      = ApiResponse.items 200 (st ++ [mkItemMem body freshId now]) ∧
    ((postItemMem st body freshId now).1.filter (fun it => it.id == freshId))
      = [mkItemMem body freshId now] := by
  refine ⟨rfl, ⟨rfl, rfl, rfl, rfl, rfl⟩, ?_, rfl, ?_⟩
  · refine ⟨?_, ?_, ?_, ?_, ?_, ?_⟩ <;> intro hb
    · show jsOr body.quantity (JSValue.num 1) = JSValue.num 1
      rw [hb, jsOr_undefined]
    · exact jsOr_of_truthy body.quantity (JSValue.num 1) hb
    · show jsOr body.category (JSValue.str "other") = JSValue.str "other"
      rw [hb, jsOr_undefined]
    · exact jsOr_of_truthy body.category (JSValue.str "other") hb
    · show jsOr body.notes (JSValue.str "") = JSValue.str ""
      rw [hb, jsOr_undefined]
    · exact jsOr_of_truthy body.notes (JSValue.str "") hb
  · exact filter_id_append_fresh hfresh rfl

/-- Witness for post_create_spec: creating into a one-item collection with
a fresh identifier appends the created record and returns it with 201. -/
theorem post_create_spec_witness :
    (∀ it ∈ [itemB], it.id ≠ "a") ∧
    postItemMem [itemB]
        ⟨JSValue.str "milk", JSValue.undefined, JSValue.undefined, JSValue.undefined⟩
        "a" "t0"
      = ([itemB] ++ [mkItemMem
            ⟨JSValue.str "milk", JSValue.undefined, JSValue.undefined, JSValue.undefined⟩
            "a" "t0"],
         ApiResponse.item 201 (mkItemMem
            ⟨JSValue.str "milk", JSValue.undefined, JSValue.undefined, JSValue.undefined⟩
            "a" "t0")) :=
  ⟨by decide,
   (post_create_spec [itemB]
      ⟨JSValue.str "milk", JSValue.undefined, JSValue.undefined, JSValue.undefined⟩
      "a" "t0" (by decide)).1⟩

/-- C1 counterexample: in the in-memory variant (src/server.js) a PUT
setting bought to true on a stored item leaves boughtAt undefined, so it
is not a non-null timestamp; the claim fails for that server variant. -/
theorem put_boughtAt_mem_cex :
    ((putItemMem [itemA] "a" putTrue).1.getD 0 default).bought = JSValue.bool true ∧
    ((putItemMem [itemA] "a" putTrue).1.getD 0 default).boughtAt = JSValue.undefined ∧
    isTimestampStr (((putItemMem [itemA] "a" putTrue).1.getD 0 default).boughtAt) = false := by
  refine ⟨by decide, by decide, by decide⟩

/-- C1 amended: in the BigQuery-backed variant, a PUT whose body sets
bought to true gives the target item a non-null string timestamp in
boughtAt, and a PUT setting bought to false clears boughtAt to null; the
in-memory variant never touches boughtAt. -/
theorem put_boughtAt_bq (st : List GroceryItem) (id now : String)
    (qv nv : JSValue) (i : ℕ) (h : findIndex id st = some i) :
    (((putItemBQ st id { bought := JSValue.bool true, quantity := qv, notes := nv } now).1.getD
        i default).boughtAt = JSValue.str now ∧
     isTimestampStr (((putItemBQ st id { bought := JSValue.bool true, quantity := qv, notes := nv }
        now).1.getD i default).boughtAt) = true) ∧
    ((putItemBQ st id { bought := JSValue.bool false, quantity := qv, notes := nv } now).1.getD
        i default).boughtAt = JSValue.null := by
  have hlt := findIndex_lt_length h
  have hset : ∀ b : PutBody,
      (putItemBQ st id b now).1
        = st.set i (applyBoughtAt b.bought now (applyPut b (st.getD i default))) := by
    intro b
    unfold putItemBQ
    rw [h]
  refine ⟨⟨?_, ?_⟩, ?_⟩ <;>
    rw [hset, getD_set_self _ _ _ _ (by simpa using hlt)] <;>
    simp [applyBoughtAt, isTimestampStr]

/-- Witness for put_boughtAt_bq on a one-item collection created by the
BigQuery POST handler. -/
theorem put_boughtAt_bq_witness :
    findIndex "b" [itemB] = some 0 ∧
    ((putItemBQ [itemB] "b" putTrue "t9").1.getD 0 default).boughtAt = JSValue.str "t9" :=
  ⟨by decide,
   ((put_boughtAt_bq [itemB] "b" "t9" JSValue.undefined JSValue.undefined 0 (by decide)).1).1⟩

theorem putItemMem_none {st : List GroceryItem} {id : String} {body : PutBody}
    (hf : findIndex id st = none) :
    putItemMem st id body = (st, ApiResponse.error 404 "Item not found") := by
  unfold putItemMem
  rw [hf]

theorem putItemMem_some {st : List GroceryItem} {id : String} {body : PutBody} {i : ℕ}
    (hf : findIndex id st = some i) :
    putItemMem st id body =
      (st.set i (applyPut body (st.getD i default)),
       ApiResponse.item 200 (applyPut body (st.getD i default))) := by
  unfold putItemMem
  rw [hf]

theorem deleteItemMem_none {st : List GroceryItem} {id : String}
    (hf : findIndex id st = none) :
    deleteItemMem st id = (st, ApiResponse.error 404 "Item not found") := by
  unfold deleteItemMem
  rw [hf]

theorem deleteItemMem_some {st : List GroceryItem} {id : String} {i : ℕ}
    (hf : findIndex id st = some i) :
    deleteItemMem st id = (st.eraseIdx i, ApiResponse.empty 204) := by
  unfold deleteItemMem
  rw [hf]

theorem posIntQuantity_truthy {v : JSValue} (h : posIntQuantity v) : truthy v = true := by
  obtain ⟨n, hn, rfl⟩ := h
  have : (n : ℚ) ≠ 0 := by exact_mod_cast Nat.pos_iff_ne_zero.mp hn
  simp [truthy, this]

theorem execOp_quantity {st : List GroceryItem} {op : ApiOp}
    (h0 : ∀ it ∈ st, posIntQuantity it.quantity) (hop : opQuantityOK op) :
    ∀ it ∈ execOp st op, posIntQuantity it.quantity := by
  cases op with
  | post body freshId now =>
      intro it hit
      rcases List.mem_append.mp hit with hm | hm
      · exact h0 it hm
      · have heq : it = mkItemMem body freshId now := by simpa using hm
        subst heq
        show posIntQuantity (jsOr body.quantity (JSValue.num 1))
        rcases hop with hund | hpos
        · rw [hund, jsOr_undefined]
          exact ⟨1, Nat.one_pos, by norm_num⟩
        · rw [jsOr_of_truthy _ _ (posIntQuantity_truthy hpos)]
          exact hpos
  | put id body =>
      intro it hit
      show posIntQuantity it.quantity
      simp only [execOp] at hit
      cases hf : findIndex id st with
      | none => rw [putItemMem_none hf] at hit; exact h0 it hit
      | some i =>
          rw [putItemMem_some hf] at hit
          rcases List.mem_or_eq_of_mem_set hit with hm | heq
          · exact h0 it hm
          · subst heq
            have hold := h0 _ (getD_mem st i default (findIndex_lt_length hf))
            rcases hop with hund | hpos
            · show posIntQuantity
                (if body.quantity ≠ JSValue.undefined then body.quantity
                 else (st.getD i default).quantity)
              rw [hund]
              simpa using hold
            · show posIntQuantity
                (if body.quantity ≠ JSValue.undefined then body.quantity
                 else (st.getD i default).quantity)
              obtain ⟨n, hn, hv⟩ := hpos
              rw [if_pos (by rw [hv]; intro hc; cases hc)]
              exact ⟨n, hn, hv⟩
  | del id =>
      intro it hit
      simp only [execOp] at hit
      cases hf : findIndex id st with
      | none => rw [deleteItemMem_none hf] at hit; exact h0 it hit
      | some i =>
          rw [deleteItemMem_some hf] at hit
          exact h0 it (List.mem_of_mem_eraseIdx hit)
  | clear =>
      intro it hit
      exact h0 it (List.mem_of_mem_filter hit)

/-- C3 amended: quantity defaults to 1 when omitted at creation, and the
positive-integer typing of quantity is preserved by every sequence of
create, patch, delete and clear requests whose supplied quantity values
are themselves positive integers; the server validates nothing, so a
request supplying a non-positive quantity breaks the invariant. -/
theorem quantity_invariant (st : List GroceryItem) (ops : List ApiOp)
    (h0 : ∀ it ∈ st, posIntQuantity it.quantity)
    (hops : ∀ op ∈ ops, opQuantityOK op) :
    (∀ it ∈ runOps st ops, posIntQuantity it.quantity) ∧
    (∀ (nm cat nts : JSValue) (freshId now : String),
      (mkItemMem ⟨nm, JSValue.undefined, cat, nts⟩ freshId now).quantity = JSValue.num 1) := by
  constructor
  · induction ops generalizing st with
    | nil => exact h0
    | cons op ops ih =>
        show ∀ it ∈ runOps (execOp st op) ops, posIntQuantity it.quantity
        exact ih (execOp st op)
          (execOp_quantity h0 (hops op (List.mem_cons_self op ops)))
          (fun o ho => hops o (List.mem_cons_of_mem op ho))
  · intro nm cat nts freshId now
    rfl

/-- Witness for quantity_invariant: one create and one patch with a
positive quantity keep every quantity a positive integer. -/
theorem quantity_invariant_witness :
    (∀ it ∈ ([] : List GroceryItem), posIntQuantity it.quantity) ∧
    (∀ op ∈ [ApiOp.post ⟨JSValue.str "milk", JSValue.undefined, JSValue.undefined,
                JSValue.undefined⟩ "a" "t0",
             ApiOp.put "a" ⟨JSValue.undefined, JSValue.num 2, JSValue.undefined⟩],
        opQuantityOK op) ∧
    (∀ it ∈ runOps []
        [ApiOp.post ⟨JSValue.str "milk", JSValue.undefined, JSValue.undefined,
            JSValue.undefined⟩ "a" "t0",
         ApiOp.put "a" ⟨JSValue.undefined, JSValue.num 2, JSValue.undefined⟩],
        posIntQuantity it.quantity) := by
  refine ⟨by simp, ?_, ?_⟩
  · intro op hop
    rcases List.mem_cons.mp hop with rfl | hop'
    · exact Or.inl rfl
    · rcases List.mem_cons.mp hop' with rfl | hop''
      · exact Or.inr ⟨2, by norm_num, by norm_num⟩
      · simp at hop''
  · refine (quantity_invariant [] _ (by simp) ?_).1
    intro op hop
    rcases List.mem_cons.mp hop with rfl | hop'
    · exact Or.inl rfl
    · rcases List.mem_cons.mp hop' with rfl | hop''
      · exact Or.inr ⟨2, by norm_num, by norm_num⟩
      · simp at hop''

/-- C3 counterexample: the create-then-patch sequence that supplies
quantity 0 to the patch leaves the stored item with quantity 0, which is
not a positive integer. -/
theorem quantity_invariant_cex :
    ((runOps []
        [ApiOp.post ⟨JSValue.str "milk", JSValue.undefined, JSValue.undefined,
            JSValue.undefined⟩ "a" "t0",
         ApiOp.put "a" ⟨JSValue.undefined, JSValue.num 0, JSValue.undefined⟩]).getD
        0 default).quantity = JSValue.num 0 ∧
    ¬ posIntQuantity (JSValue.num 0) := by
  refine ⟨by decide, ?_⟩
  rintro ⟨n, hn, hv⟩
  have h0 : (0 : ℚ) = (n : ℚ) := by injection hv
  have : n = 0 := by exact_mod_cast h0.symm
  omega

/-- C9: each animation frame updates a particle by exactly position plus
velocity, then gravity added to the vertical velocity, then drag applied
to the velocity, then rotation advanced by the rotation speed, then life
reduced by the decay, leaving gravity, drag and decay unchanged; and a
particle survives the frame exactly when it is some updated particle of
the previous frame whose life is still positive and whose y has not
fallen more than 50 pixels below the canvas. -/
theorem animate_frame_spec (p : Particle) (height : ℚ) (ps : List Particle) (q : Particle) :
    ((updateParticle p).x = p.x + p.vx ∧
     (updateParticle p).y = p.y + p.vy ∧
     (updateParticle p).vx = p.vx * p.drag ∧
     (updateParticle p).vy = (p.vy + p.gravity) * p.drag ∧
     (updateParticle p).rotation = p.rotation + p.rotationSpeed ∧
     (updateParticle p).life = p.life - p.decay ∧
     (updateParticle p).gravity = p.gravity ∧
     (updateParticle p).drag = p.drag ∧
     (updateParticle p).decay = p.decay) ∧
    (q ∈ stepFrame height ps ↔
      ∃ r, r ∈ ps ∧ q = updateParticle r ∧ ¬(q.life ≤ 0 ∨ q.y > height + 50)) := by
  refine ⟨⟨rfl, rfl, rfl, rfl, rfl, rfl, rfl, rfl, rfl⟩, ?_⟩
  rw [mem_stepFrame]
  exact exists_congr fun r =>
    and_congr_right fun _ => and_congr_right fun _ => dead_eq_false_iff

/-- C2 counterexample: a singleton particle set with the default decay
1/100 keeps its count at 1 after a frame, so the count does not strictly
decrease on every successive frame. -/
theorem particles_strict_decrease_cex :
    0 < sampleParticle.decay ∧ [sampleParticle] ≠ [] ∧
    ¬ (stepFrame 600 [sampleParticle]).length < [sampleParticle].length := by
  have hd : dead 600 (updateParticle sampleParticle) = false := by
    norm_num [dead, updateParticle, sampleParticle]
  refine ⟨by norm_num [sampleParticle], by simp, ?_⟩
  simp [stepFrame, List.filter, hd]

/-- C2 amended: the particle count never increases from one frame to the
next, and when every active particle has decay rate greater than 0 the
count reaches zero after finitely many frames. -/
theorem particles_terminate (height : ℚ) (ps : List Particle) :
    (stepFrame height ps).length ≤ ps.length ∧
    ((∀ p ∈ ps, 0 < p.decay) → ∃ N : ℕ, (stepFrame height)^[N] ps = []) := by
  constructor
  · calc (stepFrame height ps).length
        ≤ (ps.map updateParticle).length := List.length_filter_le _ _
      _ = ps.length := List.length_map _ _
  · intro hd
    obtain ⟨N, hN⟩ := exists_decay_bound ps hd
    refine ⟨N + 1, List.eq_nil_iff_forall_not_mem.mpr fun q hq => ?_⟩
    have hq' := hq
    rw [Function.iterate_succ_apply'] at hq'
    have hpos := life_pos_of_mem_stepFrame hq'
    obtain ⟨r, hr, h1, -⟩ := life_iterate hq
    have h2 := hN r hr
    have h3 := hd r hr
    have hc : ((N + 1 : ℕ) : ℚ) * r.decay = (N : ℚ) * r.decay + r.decay := by
      push_cast
      ring
    rw [hc] at h1
    linarith

/-- Witness for particles_terminate on the singleton default particle. -/
theorem particles_terminate_witness :
    (∀ p ∈ [sampleParticle], 0 < p.decay) ∧
    (stepFrame 600 [sampleParticle]).length ≤ [sampleParticle].length ∧
    (∃ N : ℕ, (stepFrame 600)^[N] [sampleParticle] = []) :=
  ⟨by norm_num [List.forall_mem_singleton, sampleParticle],
   (particles_terminate 600 [sampleParticle]).1,
   (particles_terminate 600 [sampleParticle]).2
     (by norm_num [List.forall_mem_singleton, sampleParticle])⟩
